import Mathlib

/-
Verification development for the procedural animal-cell generator
(src/blender/generate_cell.py) against its natural-language specification.

The geometry code is embedded shallowly: mathutils vectors become a record
of three real numbers, the unseeded Python random source becomes an
explicit stream of draws in [0, 1) passed as a function argument (each
call site of random.random consumes one stream position, laid out in the
order the source performs the calls), and each organelle generator becomes
a pure function of its draws producing the list of scene objects it
creates.  Host-API calls (mesh primitives, modifiers, materials,
collections) are represented by the data they contribute to the scene: an
object record with a name, a kind tag, an optional material name, a
location and, for curve objects, its control points.
-/

/-- Vector of three real coordinates, embedding mathutils.Vector. -/
structure Vec3 where
  x : ℝ
  y : ℝ
  z : ℝ

/-- Zero vector. -/
def Vec3.zero : Vec3 := ⟨0, 0, 0⟩

/-- Componentwise vector addition. -/
def Vec3.add (a b : Vec3) : Vec3 := ⟨a.x + b.x, a.y + b.y, a.z + b.z⟩

/-- Componentwise vector subtraction. -/
def Vec3.sub (a b : Vec3) : Vec3 := ⟨a.x - b.x, a.y - b.y, a.z - b.z⟩

/-- Scalar multiplication of a vector. -/
def Vec3.smul (c : ℝ) (v : Vec3) : Vec3 := ⟨c * v.x, c * v.y, c * v.z⟩

/-- Euclidean length of a vector, embedding the mathutils length property. -/
noncomputable def Vec3.length (v : Vec3) : ℝ :=
  Real.sqrt (v.x ^ 2 + v.y ^ 2 + v.z ^ 2)

/-- Dot product of two vectors. -/
def Vec3.dot (a b : Vec3) : ℝ := a.x * b.x + a.y * b.y + a.z * b.z

/-- Unit vector in the direction of v; mathutils returns the zero vector
when normalizing a vector of length zero. -/
noncomputable def Vec3.normalized (v : Vec3) : Vec3 :=
  if v.length = 0 then Vec3.zero else Vec3.smul (1 / v.length) v

theorem Vec3.length_nonneg (v : Vec3) : 0 ≤ v.length :=
  Real.sqrt_nonneg _

theorem Vec3.length_eq_zero {v : Vec3} : v.length = 0 ↔ v = Vec3.zero := by
  obtain ⟨a, b, c⟩ := v
  simp only [Vec3.length, Vec3.zero, Vec3.mk.injEq]
  rw [Real.sqrt_eq_zero']
  constructor
  · intro h
    refine ⟨?_, ?_, ?_⟩ <;> nlinarith [sq_nonneg a, sq_nonneg b, sq_nonneg c]
  · rintro ⟨rfl, rfl, rfl⟩
    norm_num

theorem Vec3.length_smul (c : ℝ) (v : Vec3) :
    (Vec3.smul c v).length = |c| * v.length := by
  obtain ⟨a, b, d⟩ := v
  simp only [Vec3.smul, Vec3.length]
  rw [show (c * a) ^ 2 + (c * b) ^ 2 + (c * d) ^ 2
        = c ^ 2 * (a ^ 2 + b ^ 2 + d ^ 2) by ring,
      Real.sqrt_mul (sq_nonneg c), Real.sqrt_sq_eq_abs]

theorem Vec3.smul_smul (a b : ℝ) (v : Vec3) :
    Vec3.smul a (Vec3.smul b v) = Vec3.smul (a * b) v := by
  simp [Vec3.smul, mul_assoc]

theorem Vec3.normalized_length {v : Vec3} (h : v ≠ Vec3.zero) :
    v.normalized.length = 1 := by
  have hl : v.length ≠ 0 := fun h0 => h (Vec3.length_eq_zero.mp h0)
  have hpos : 0 < v.length := lt_of_le_of_ne (Vec3.length_nonneg v) (Ne.symm hl)
  rw [Vec3.normalized, if_neg hl, Vec3.length_smul,
      abs_of_pos (by positivity : (0:ℝ) < 1 / v.length)]
  field_simp

theorem Vec3.length_sub_comm (a b : Vec3) :
    (Vec3.sub a b).length = (Vec3.sub b a).length := by
  simp only [Vec3.sub, Vec3.length]
  congr 1
  ring

/-
Random sampler, from the source:

    def random_point_in_sphere(radius):
        u = random.random(); v = random.random()
        theta = 2 * math.pi * u
        phi = math.acos(2 * v - 1)
        r = radius * (random.random() ** (1/3))
        ...

The three draws are passed explicitly as u, v, w.
-/

/-- Sampler random_point_in_sphere of the source, with its three
random.random() draws u, v, w passed explicitly. -/
noncomputable def random_point_in_sphere (radius u v w : ℝ) : Vec3 :=
  let theta := 2 * Real.pi * u
  let phi := Real.arccos (2 * v - 1)
  let r := radius * w ^ ((1 : ℝ) / 3)
  ⟨r * Real.sin phi * Real.cos theta,
   r * Real.sin phi * Real.sin theta,
   r * Real.cos phi⟩

/-- Sampler random_point_on_sphere of the source, with its two draws
passed explicitly. -/
noncomputable def random_point_on_sphere (radius u v : ℝ) : Vec3 :=
  let theta := 2 * Real.pi * u
  let phi := Real.arccos (2 * v - 1)
  ⟨radius * Real.sin phi * Real.cos theta,
   radius * Real.sin phi * Real.sin theta,
   radius * Real.cos phi⟩

theorem length_spherical (r θ φ : ℝ) :
    (Vec3.mk (r * Real.sin φ * Real.cos θ) (r * Real.sin φ * Real.sin θ)
      (r * Real.cos φ)).length = |r| := by
  simp only [Vec3.length]
  rw [show (r * Real.sin φ * Real.cos θ) ^ 2 + (r * Real.sin φ * Real.sin θ) ^ 2
        + (r * Real.cos φ) ^ 2
        = r ^ 2 * ((Real.sin φ) ^ 2 * ((Real.sin θ) ^ 2 + (Real.cos θ) ^ 2)
            + (Real.cos φ) ^ 2) by ring,
      Real.sin_sq_add_cos_sq, mul_one, Real.sin_sq_add_cos_sq, mul_one,
      Real.sqrt_sq_eq_abs]

theorem random_point_in_sphere_length (radius u v w : ℝ) :
    (random_point_in_sphere radius u v w).length = |radius * w ^ ((1 : ℝ) / 3)| := by
  rw [random_point_in_sphere]
  exact length_spherical _ _ _

theorem random_point_in_sphere_zero_draws (radius : ℝ) :
    random_point_in_sphere radius 0 0 0 = Vec3.zero := by
  simp [random_point_in_sphere, Real.zero_rpow (by norm_num : ((1:ℝ)/3) ≠ 0),
    Vec3.zero]

/-- Zero vector has length zero. -/
theorem Vec3.length_zero : (Vec3.zero).length = 0 := by
  simp [Vec3.length, Vec3.zero]

/-
Push-out rule, inlined three times in the source:

    pos = random_point_in_sphere(R)
    if pos.length < threshold:
        pos = pos.normalized() * minR
-/

/-- Push-out rule shared by create_mitochondria, create_lysosomes and
create_free_ribosomes: a sample closer to the origin than the threshold is
replaced by its normalization scaled to the minimum radius. -/
noncomputable def pushOut (pos : Vec3) (threshold minR : ℝ) : Vec3 :=
  if pos.length < threshold then Vec3.smul minR pos.normalized else pos

/-- Constant-zero draw stream, a valid value of the random source. -/
def gZero : ℕ → ℝ := fun _ => 0

/-
Mitochondria placement (create_mitochondria): each iteration i draws the
sample (3 draws), a rotation (3 draws), then the capsule length and radius
(2 draws), 8 draws per iteration.
-/

/-- Pre-push sample for mitochondrion i. -/
noncomputable def mitoPre (g : ℕ → ℝ) (i : ℕ) : Vec3 :=
  random_point_in_sphere 2.2 (g (8 * i)) (g (8 * i + 1)) (g (8 * i + 2))

/-- Placed position of mitochondrion i after the push-out rule. -/
noncomputable def mitoPos (g : ℕ → ℝ) (i : ℕ) : Vec3 :=
  pushOut (mitoPre g i) 1.4 1.7

/-
Lysosome placement (create_lysosomes): each iteration draws the sample
(3 draws) and the sphere radius (1 draw), 4 draws per iteration.
-/

/-- Pre-push sample for lysosome i. -/
noncomputable def lysoPre (g : ℕ → ℝ) (i : ℕ) : Vec3 :=
  random_point_in_sphere 2.3 (g (4 * i)) (g (4 * i + 1)) (g (4 * i + 2))

/-- Placed position of lysosome i after the push-out rule. -/
noncomputable def lysoPos (g : ℕ → ℝ) (i : ℕ) : Vec3 :=
  pushOut (lysoPre g i) 1.4 1.7

/-
Free-ribosome placement (create_free_ribosomes): each iteration draws only
the sample, 3 draws per iteration.
-/

/-- Pre-push sample for free ribosome i. -/
noncomputable def freeRiboPre (g : ℕ → ℝ) (i : ℕ) : Vec3 :=
  random_point_in_sphere 2.5 (g (3 * i)) (g (3 * i + 1)) (g (3 * i + 2))

/-- Placed position of free ribosome i after the push-out rule. -/
noncomputable def freeRiboPos (g : ℕ → ℝ) (i : ℕ) : Vec3 :=
  pushOut (freeRiboPre g i) 1.3 1.5

theorem pushOut_length {pos : Vec3} (h0 : pos ≠ Vec3.zero) {th mr : ℝ}
    (hmr : 0 < mr) (hlt : pos.length < th) :
    (pushOut pos th mr).length = mr := by
  rw [pushOut, if_pos hlt, Vec3.length_smul, Vec3.normalized_length h0,
      mul_one, abs_of_pos hmr]

theorem pushOut_dir {pos : Vec3} (h0 : pos ≠ Vec3.zero) {th mr : ℝ}
    (hmr : 0 < mr) (hlt : pos.length < th) :
    ∃ t : ℝ, 0 < t ∧ pushOut pos th mr = Vec3.smul t pos := by
  have hl : pos.length ≠ 0 := fun hz => h0 (Vec3.length_eq_zero.mp hz)
  have hpos : 0 < pos.length :=
    lt_of_le_of_ne (Vec3.length_nonneg pos) (Ne.symm hl)
  refine ⟨mr * (1 / pos.length), by positivity, ?_⟩
  rw [pushOut, if_pos hlt, Vec3.normalized, if_neg hl, Vec3.smul_smul]

theorem pushOut_of_not_lt {pos : Vec3} {th mr : ℝ} (hge : ¬ pos.length < th) :
    pushOut pos th mr = pos := by
  rw [pushOut, if_neg hge]

/-- Claim C8: for every radius r > 0 and every draw of the random source,
random_point_in_sphere r returns a point whose distance from the origin is
at most r. -/
theorem c8_point_in_sphere_radius (radius u v w : ℝ)
    (hradius : 0 < radius)
    (hu0 : 0 ≤ u) (hu1 : u < 1) (hv0 : 0 ≤ v) (hv1 : v < 1)
    (hw0 : 0 ≤ w) (hw1 : w < 1) :
    (random_point_in_sphere radius u v w).length ≤ radius := by
  rw [random_point_in_sphere_length]
  have hrpow0 : 0 ≤ w ^ ((1 : ℝ) / 3) := Real.rpow_nonneg hw0 _
  have hrpow1 : w ^ ((1 : ℝ) / 3) ≤ 1 :=
    Real.rpow_le_one hw0 (le_of_lt hw1) (by norm_num)
  rw [abs_of_nonneg (by positivity)]
  nlinarith

/-- Witness for claim C8 at radius 1 and zero draws. -/
theorem c8_point_in_sphere_radius_witness :
    (0:ℝ) < 1 ∧ (0:ℝ) ≤ 0 ∧
      (random_point_in_sphere 1 0 0 0).length ≤ 1 :=
  ⟨by norm_num, by norm_num,
   c8_point_in_sphere_radius 1 0 0 0 (by norm_num) (by norm_num) (by norm_num)
     (by norm_num) (by norm_num) (by norm_num) (by norm_num)⟩

/-- Claim C2 (amended): the nonzero-position precondition added.  For every
nonzero sampled position, the push-out used by the mitochondria, lysosome
and free-ribosome generators replaces a sample closer than the threshold
with a positive multiple of itself whose distance is exactly the documented
minimum radius, and leaves a sample at or beyond the threshold unchanged. -/
theorem c2_pushout_rule (g : ℕ → ℝ) (i : ℕ) (pos : Vec3)
    (h0 : pos ≠ Vec3.zero) :
    (mitoPos g i = pushOut (mitoPre g i) 1.4 1.7
      ∧ lysoPos g i = pushOut (lysoPre g i) 1.4 1.7
      ∧ freeRiboPos g i = pushOut (freeRiboPre g i) 1.3 1.5)
    ∧ (∀ th mr : ℝ, 0 < mr → pos.length < th →
        (pushOut pos th mr).length = mr
          ∧ ∃ t : ℝ, 0 < t ∧ pushOut pos th mr = Vec3.smul t pos)
    ∧ (∀ th mr : ℝ, ¬ pos.length < th → pushOut pos th mr = pos) := by
  refine ⟨⟨rfl, rfl, rfl⟩, ?_, ?_⟩
  · intro th mr hmr hlt
    exact ⟨pushOut_length h0 hmr hlt, pushOut_dir h0 hmr hlt⟩
  · intro th mr hge
    exact pushOut_of_not_lt hge

/-- Witness for the amended claim C2, at the unit vector along x. -/
theorem c2_pushout_rule_witness :
    ((⟨1, 0, 0⟩ : Vec3) ≠ Vec3.zero)
    ∧ ((mitoPos gZero 0 = pushOut (mitoPre gZero 0) 1.4 1.7
      ∧ lysoPos gZero 0 = pushOut (lysoPre gZero 0) 1.4 1.7
      ∧ freeRiboPos gZero 0 = pushOut (freeRiboPre gZero 0) 1.3 1.5)
    ∧ (∀ th mr : ℝ, 0 < mr → (Vec3.mk 1 0 0).length < th →
        (pushOut ⟨1, 0, 0⟩ th mr).length = mr
          ∧ ∃ t : ℝ, 0 < t ∧ pushOut ⟨1, 0, 0⟩ th mr = Vec3.smul t ⟨1, 0, 0⟩)
    ∧ (∀ th mr : ℝ, ¬ (Vec3.mk 1 0 0).length < th →
        pushOut ⟨1, 0, 0⟩ th mr = ⟨1, 0, 0⟩)) :=
  ⟨by simp [Vec3.zero], c2_pushout_rule gZero 0 ⟨1, 0, 0⟩ (by simp [Vec3.zero])⟩

/-- Claim C2 counterexample: the all-zero draw sequence is a valid draw of
the random source, its free-ribosome sample is the origin, whose pre-push
distance 0 is below the threshold 1.3; yet the pushed position is again
the origin, at distance 0 from the center instead of at the documented
minimum radius 1.5. -/
theorem c2_pushout_counterexample :
    (freeRiboPre gZero 0).length < 1.3
    ∧ freeRiboPos gZero 0 = Vec3.zero
    ∧ (freeRiboPos gZero 0).length ≠ 1.5 := by
  have hpre : freeRiboPre gZero 0 = Vec3.zero := by
    simp [freeRiboPre, gZero, random_point_in_sphere_zero_draws]
  have hpush : freeRiboPos gZero 0 = Vec3.zero := by
    rw [freeRiboPos, hpre, pushOut, if_pos]
    · simp [Vec3.normalized, Vec3.length_zero, Vec3.smul, Vec3.zero]
    · rw [Vec3.length_zero]; norm_num
  refine ⟨?_, hpush, ?_⟩
  · rw [hpre, Vec3.length_zero]; norm_num
  · rw [hpush, Vec3.length_zero]; norm_num

/-- Claim C10: the radial variate of random_point_in_sphere can be 0, in
which case the sample is exactly the origin; normalizing the zero vector
yields the zero vector, so the push-out of all three generators leaves the
organelle at the exact cell center, at distance 0 instead of the documented
minimum radius.  The minimum-distance guarantee therefore needs the
nonzero-position precondition. -/
theorem c10_zero_sample_edge_case :
    random_point_in_sphere 2.2 0 0 0 = Vec3.zero
    ∧ random_point_in_sphere 2.3 0 0 0 = Vec3.zero
    ∧ random_point_in_sphere 2.5 0 0 0 = Vec3.zero
    ∧ Vec3.normalized Vec3.zero = Vec3.zero
    ∧ mitoPos gZero 0 = Vec3.zero
    ∧ lysoPos gZero 0 = Vec3.zero
    ∧ freeRiboPos gZero 0 = Vec3.zero
    ∧ (mitoPos gZero 0).length = 0
    ∧ (0:ℝ) < 1.7 := by
  have hnorm : Vec3.normalized Vec3.zero = Vec3.zero := by
    rw [Vec3.normalized, if_pos Vec3.length_zero]
  have hpush : pushOut Vec3.zero 1.4 1.7 = Vec3.zero := by
    rw [pushOut, if_pos]
    · rw [hnorm]; simp [Vec3.smul, Vec3.zero]
    · rw [Vec3.length_zero]; norm_num
  have hpush' : pushOut Vec3.zero 1.3 1.5 = Vec3.zero := by
    rw [pushOut, if_pos]
    · rw [hnorm]; simp [Vec3.smul, Vec3.zero]
    · rw [Vec3.length_zero]; norm_num
  have hm : mitoPos gZero 0 = Vec3.zero := by
    rw [mitoPos, show mitoPre gZero 0 = Vec3.zero by
      simp [mitoPre, gZero, random_point_in_sphere_zero_draws]]
    exact hpush
  have hl : lysoPos gZero 0 = Vec3.zero := by
    rw [lysoPos, show lysoPre gZero 0 = Vec3.zero by
      simp [lysoPre, gZero, random_point_in_sphere_zero_draws]]
    exact hpush
  have hr : freeRiboPos gZero 0 = Vec3.zero := by
    rw [freeRiboPos, show freeRiboPre gZero 0 = Vec3.zero by
      simp [freeRiboPre, gZero, random_point_in_sphere_zero_draws]]
    exact hpush'
  refine ⟨random_point_in_sphere_zero_draws 2.2,
    random_point_in_sphere_zero_draws 2.3,
    random_point_in_sphere_zero_draws 2.5, hnorm, hm, hl, hr, ?_, by norm_num⟩
  rw [hm, Vec3.length_zero]

/-
Rough ER cisterna deformation (create_er_cisterna): the unit plane is
subdivided with 12 cuts, giving a 14 by 14 vertex grid over local
coordinates [-0.5, 0.5], and every vertex z is recomputed from its local
(x, y).
-/

/-- Z-displacement applied to a cisterna plane vertex at local (x, y), from
the vertex loop of create_er_cisterna. -/
noncomputable def cisternaZ (x y : ℝ) : ℝ :=
  let curve := 0.15 * (1 - (x * 2) ^ 2)
  let wave := Real.sin (x * 8) * 0.03 + Real.sin (y * 6) * 0.02
  let edge_dist := max |x * 2| |y * 2|
  let roll := if edge_dist > 0.7 then ((edge_dist - 0.7) / 0.3) ^ 2 * 0.06 else 0
  curve + wave + roll

/-- Parabolic curvature term of the cisterna deformation. -/
noncomputable def curveTerm (x : ℝ) : ℝ := 0.15 * (1 - (x * 2) ^ 2)

/-- Waviness term of the cisterna deformation. -/
noncomputable def waveTerm (x y : ℝ) : ℝ :=
  Real.sin (x * 8) * 0.03 + Real.sin (y * 6) * 0.02

/-- Roll-up term as the source computes it: gated on the normalized
Chebyshev distance, the larger of the absolute values of 2x and 2y. -/
noncomputable def rollTermCheb (x y : ℝ) : ℝ :=
  if max |x * 2| |y * 2| > 0.7 then
    ((max |x * 2| |y * 2| - 0.7) / 0.3) ^ 2 * 0.06
  else 0

/-- Roll-up term read from the claim wording: gated on the normalized
RADIAL (Euclidean) distance of (x, y) from the sheet center.  Kept only to
compare with the source definition rollTermCheb. -/
noncomputable def rollTermRadial (x y : ℝ) : ℝ :=
  if Real.sqrt ((x * 2) ^ 2 + (y * 2) ^ 2) > 0.7 then
    ((Real.sqrt ((x * 2) ^ 2 + (y * 2) ^ 2) - 0.7) / 0.3) ^ 2 * 0.06
  else 0

/-- Local x (and by symmetry y) coordinate of grid line i of the subdivided
unit plane: 14 lines across [-0.5, 0.5]. -/
noncomputable def erVertX (i : ℕ) : ℝ := -0.5 + (i : ℝ) / 13

/-- Vertex list of one ER cisterna sheet after the deformation loop of
create_er_cisterna: each vertex keeps its local (x, y) and its z coordinate
is set to cisternaZ x y. -/
noncomputable def erCisternaVerts : List (ℝ × ℝ × ℝ) :=
  (List.range 14).flatMap (fun i =>
    (List.range 14).map (fun j =>
      (erVertX i, erVertX j, cisternaZ (erVertX i) (erVertX j))))

/-- Claim C3 (amended): for every vertex of a rough-ER cisterna plane at
local (x, y), the applied z-displacement equals the sum of the parabolic
curvature term, the waviness term, and the roll-up term gated on the
normalized CHEBYSHEV distance max(|2x|, |2y|) (rather than the Euclidean
radial distance); the result is a fixed function of (x, y) alone, hence
exactly reproducible. -/
theorem c3_er_deformation :
    erCisternaVerts.Forall (fun p =>
      p.2.2 = curveTerm p.1 + waveTerm p.1 p.2.1 + rollTermCheb p.1 p.2.1
      ∧ p.2.2 = cisternaZ p.1 p.2.1) := by
  rw [List.forall_iff_forall_mem]
  intro p hp
  simp only [erCisternaVerts, List.mem_flatMap, List.mem_map] at hp
  obtain ⟨i, _, j, _, rfl⟩ := hp
  exact ⟨by simp only [cisternaZ, curveTerm, waveTerm, rollTermCheb], rfl⟩

/-- Claim C3 counterexample: the mesh vertex with local coordinates
x = y = 9/26 belongs to the cisterna grid; there the code's normalized
Chebyshev distance is 9/13, which does not exceed 0.7, so the code adds no
roll, whereas the Euclidean radial distance of the claim wording exceeds
0.7 and would force a strictly positive roll term, so the z-displacement
differs from the claimed formula. -/
theorem c3_er_deformation_counterexample :
    (erVertX 11, erVertX 11, cisternaZ (erVertX 11) (erVertX 11)) ∈ erCisternaVerts
    ∧ cisternaZ (erVertX 11) (erVertX 11)
        = curveTerm (erVertX 11) + waveTerm (erVertX 11) (erVertX 11)
    ∧ cisternaZ (erVertX 11) (erVertX 11)
        ≠ curveTerm (erVertX 11) + waveTerm (erVertX 11) (erVertX 11)
          + rollTermRadial (erVertX 11) (erVertX 11) := by
  have hx : erVertX 11 = 9 / 26 := by
    rw [erVertX]; norm_num
  have habs : |(9 / 26 : ℝ) * 2| = 9 / 13 := by
    rw [abs_of_pos] <;> norm_num
  have heq : cisternaZ (erVertX 11) (erVertX 11)
      = curveTerm (erVertX 11) + waveTerm (erVertX 11) (erVertX 11) := by
    rw [hx]
    simp only [cisternaZ, curveTerm, waveTerm]
    rw [if_neg]
    · rw [add_zero]
    · rw [max_self, habs]
      norm_num
  have hrollpos : 0 < rollTermRadial (erVertX 11) (erVertX 11) := by
    rw [hx]
    simp only [rollTermRadial]
    rw [show ((9:ℝ) / 26 * 2) ^ 2 + ((9:ℝ) / 26 * 2) ^ 2 = 162 / 169 by norm_num]
    have hd : (0.7 : ℝ) < Real.sqrt (162 / 169) := by
      rw [Real.lt_sqrt (by norm_num)]
      norm_num
    rw [if_pos hd]
    have hdiv : (0:ℝ) < (Real.sqrt (162 / 169) - 0.7) / 0.3 := by
      apply div_pos _ (by norm_num)
      linarith
    exact mul_pos (pow_pos hdiv 2) (by norm_num)
  refine ⟨?_, heq, ?_⟩
  · simp only [erCisternaVerts, List.mem_flatMap, List.mem_map]
    exact ⟨11, by decide, 11, by decide, rfl⟩
  · rw [heq]
    intro habs2
    exact (ne_of_gt hrollpos) (self_eq_add_right.mp habs2)

/-
Rough ER stacks (create_rough_er).  Per-cisterna draw budget: one draw for
the cisterna z-rotation, then three draws per ribosome (x offset, y offset,
side choice).  Stack 1 has 5 cisternae with 20 ribosomes each (61 draws per
cisterna), stack 2 has 4 cisternae with 15 ribosomes each (46 draws,
starting at stream position 305), stack 3 has 3 cisternae with 12 ribosomes
each (37 draws, starting at position 489).
-/

/-- Python random.uniform(a, b), written with its defining draw. -/
noncomputable def pyUniform (a b u : ℝ) : ℝ := a + (b - a) * u

/-- Model of random.choice over the two-element list [-1, 1]: the first
element is selected when the underlying draw is below one half, the second
otherwise. -/
noncomputable def choiceSign (u : ℝ) : ℝ := if u < 1 / 2 then -1 else 1

/-- Location of stack-1 cisterna i. -/
noncomputable def stack1CisternaLoc (i : ℕ) : Vec3 :=
  Vec3.add ⟨1.4, 0.1, 0.3⟩ ⟨0.06 * i, i * 0.1 - 0.2, 0⟩

/-- Location of stack-2 cisterna i. -/
noncomputable def stack2CisternaLoc (i : ℕ) : Vec3 :=
  Vec3.add ⟨-0.8, -0.2, 1.3⟩ ⟨0.05 * i, i * 0.1 - 0.15, 0⟩

/-- Location of stack-3 cisterna i. -/
noncomputable def stack3CisternaLoc (i : ℕ) : Vec3 :=
  Vec3.add ⟨0.5, 0.4, -1.4⟩ ⟨0.05 * i, i * 0.09 - 0.1, 0⟩

/-- Position of ribosome r around stack-1 cisterna i. -/
noncomputable def stack1Ribosome (g : ℕ → ℝ) (i r : ℕ) : Vec3 :=
  let loc := stack1CisternaLoc i
  ⟨loc.x + pyUniform (-0.4) 0.4 (g (61 * i + 1 + 3 * r)),
   loc.y + pyUniform (-0.25) 0.25 (g (61 * i + 2 + 3 * r)),
   loc.z + 0.025 * choiceSign (g (61 * i + 3 + 3 * r))⟩

/-- Position of ribosome r around stack-2 cisterna i. -/
noncomputable def stack2Ribosome (g : ℕ → ℝ) (i r : ℕ) : Vec3 :=
  let loc := stack2CisternaLoc i
  ⟨loc.x + pyUniform (-0.35) 0.35 (g (305 + 46 * i + 1 + 3 * r)),
   loc.y + pyUniform (-0.22) 0.22 (g (305 + 46 * i + 2 + 3 * r)),
   loc.z + 0.025 * choiceSign (g (305 + 46 * i + 3 + 3 * r))⟩

/-- Position of ribosome r around stack-3 cisterna i. -/
noncomputable def stack3Ribosome (g : ℕ → ℝ) (i r : ℕ) : Vec3 :=
  let loc := stack3CisternaLoc i
  ⟨loc.x + pyUniform (-0.3) 0.3 (g (489 + 37 * i + 1 + 3 * r)),
   loc.y + pyUniform (-0.2) 0.2 (g (489 + 37 * i + 2 + 3 * r)),
   loc.z + 0.025 * choiceSign (g (489 + 37 * i + 3 + 3 * r))⟩

theorem pyUniform_abs_le {a u : ℝ} (ha : 0 ≤ a) (h0 : 0 ≤ u) (h1 : u ≤ 1) :
    |pyUniform (-a) a u| ≤ a := by
  rw [pyUniform, abs_le]
  constructor <;> nlinarith

theorem choiceSign_cases (u : ℝ) : choiceSign u = -1 ∨ choiceSign u = 1 := by
  rw [choiceSign]
  split_ifs with h
  · exact Or.inl rfl
  · exact Or.inr rfl

theorem riboOffsetBounds (loc : Vec3) (a b ux uy uz : ℝ)
    (ha : 0 ≤ a) (hb : 0 ≤ b) (hux0 : 0 ≤ ux) (hux1 : ux ≤ 1)
    (huy0 : 0 ≤ uy) (huy1 : uy ≤ 1) :
    |loc.x + pyUniform (-a) a ux - loc.x| ≤ a
    ∧ |loc.y + pyUniform (-b) b uy - loc.y| ≤ b
    ∧ (loc.z + 0.025 * choiceSign uz = loc.z + 0.025
       ∨ loc.z + 0.025 * choiceSign uz = loc.z - 0.025) := by
  refine ⟨?_, ?_, ?_⟩
  · rw [add_sub_cancel_left]
    exact pyUniform_abs_le ha hux0 hux1
  · rw [add_sub_cancel_left]
    exact pyUniform_abs_le hb huy0 huy1
  · rcases choiceSign_cases uz with h | h <;> rw [h]
    · right; ring
    · left; ring

/-- Claim C6 (amended): every ER-bound ribosome lies within the fixed
bounding box around its cisterna location (half-extents 0.4 by 0.25 for
stack 1, 0.35 by 0.22 for stack 2, 0.3 by 0.2 for stack 3) and sits at the
fixed offset 0.025 above or below the sheet plane; the side is chosen at
random independently per ribosome, not by alternation, so consecutive
ribosomes need not lie on opposite sides. -/
theorem c6_er_ribosome_placement (g : ℕ → ℝ)
    (hg : ∀ n, 0 ≤ g n ∧ g n < 1) (i r : ℕ) :
    (|(stack1Ribosome g i r).x - (stack1CisternaLoc i).x| ≤ 0.4
     ∧ |(stack1Ribosome g i r).y - (stack1CisternaLoc i).y| ≤ 0.25
     ∧ ((stack1Ribosome g i r).z = (stack1CisternaLoc i).z + 0.025
        ∨ (stack1Ribosome g i r).z = (stack1CisternaLoc i).z - 0.025))
    ∧ (|(stack2Ribosome g i r).x - (stack2CisternaLoc i).x| ≤ 0.35
     ∧ |(stack2Ribosome g i r).y - (stack2CisternaLoc i).y| ≤ 0.22
     ∧ ((stack2Ribosome g i r).z = (stack2CisternaLoc i).z + 0.025
        ∨ (stack2Ribosome g i r).z = (stack2CisternaLoc i).z - 0.025))
    ∧ (|(stack3Ribosome g i r).x - (stack3CisternaLoc i).x| ≤ 0.3
     ∧ |(stack3Ribosome g i r).y - (stack3CisternaLoc i).y| ≤ 0.2
     ∧ ((stack3Ribosome g i r).z = (stack3CisternaLoc i).z + 0.025
        ∨ (stack3Ribosome g i r).z = (stack3CisternaLoc i).z - 0.025)) := by
  refine ⟨?_, ?_, ?_⟩
  · simpa only [stack1Ribosome] using
      riboOffsetBounds (stack1CisternaLoc i) 0.4 0.25
        (g (61 * i + 1 + 3 * r)) (g (61 * i + 2 + 3 * r)) (g (61 * i + 3 + 3 * r))
        (by norm_num) (by norm_num) (hg _).1 (le_of_lt (hg _).2)
        (hg _).1 (le_of_lt (hg _).2)
  · simpa only [stack2Ribosome] using
      riboOffsetBounds (stack2CisternaLoc i) 0.35 0.22
        (g (305 + 46 * i + 1 + 3 * r)) (g (305 + 46 * i + 2 + 3 * r))
        (g (305 + 46 * i + 3 + 3 * r))
        (by norm_num) (by norm_num) (hg _).1 (le_of_lt (hg _).2)
        (hg _).1 (le_of_lt (hg _).2)
  · simpa only [stack3Ribosome] using
      riboOffsetBounds (stack3CisternaLoc i) 0.3 0.2
        (g (489 + 37 * i + 1 + 3 * r)) (g (489 + 37 * i + 2 + 3 * r))
        (g (489 + 37 * i + 3 + 3 * r))
        (by norm_num) (by norm_num) (hg _).1 (le_of_lt (hg _).2)
        (hg _).1 (le_of_lt (hg _).2)

/-- Witness for the amended claim C6 at the constant-zero draw stream. -/
theorem c6_er_ribosome_placement_witness :
    (∀ n, 0 ≤ gZero n ∧ gZero n < 1)
    ∧ |(stack1Ribosome gZero 0 0).x - (stack1CisternaLoc 0).x| ≤ 0.4 :=
  ⟨fun n => ⟨le_refl _, by rw [gZero]; norm_num⟩,
   (c6_er_ribosome_placement gZero
     (fun n => ⟨le_refl _, by rw [gZero]; norm_num⟩) 0 0).1.1⟩

/-- Claim C6 counterexample: with the constant-zero draw stream, a valid
value of the random source, ribosomes 0 and 1 of stack-1 cisterna 0 are
both placed 0.025 BELOW the sheet plane, so consecutive ribosomes are not
on opposite sides of the sheet. -/
theorem c6_consecutive_same_side :
    (∀ n, 0 ≤ gZero n ∧ gZero n < 1)
    ∧ (stack1Ribosome gZero 0 0).z = (stack1CisternaLoc 0).z - 0.025
    ∧ (stack1Ribosome gZero 0 1).z = (stack1CisternaLoc 0).z - 0.025 := by
  have hc : choiceSign 0 = -1 := by
    rw [choiceSign, if_pos]
    norm_num
  refine ⟨fun n => ⟨le_refl _, by rw [gZero]; norm_num⟩, ?_, ?_⟩ <;>
    · show (stack1CisternaLoc 0).z + 0.025 * choiceSign (gZero _) = _
      rw [gZero, hc]
      ring

/-
Centrosome (create_centrosome): two centrioles of 9 triplets of 3 short
cylinders each.  The construction consumes no random draws.
-/

/-- Extra rotation about x applied to a centriole tube: only the second
centriole (c = 1) is rotated by pi over two. -/
noncomputable def tubeRotX (c : ℕ) : ℝ := if c = 1 then Real.pi / 2 else 0

/-- Long-axis direction of a centriole tube: the default cylinder axis
(0, 0, 1) rotated about x by tubeRotX. -/
noncomputable def tubeAxis (c : ℕ) : Vec3 :=
  ⟨0, -Real.sin (tubeRotX c), Real.cos (tubeRotX c)⟩

/-- Location of tube t of triplet i of centriole c, from create_centrosome;
the y component keeps the dead conditional of the source, which contributes
0 in either branch. -/
noncomputable def centrioleTubeLoc (c i t : ℕ) : Vec3 :=
  let base : Vec3 := ⟨1.5, -0.5, -1.2⟩
  let centriole_pos := Vec3.add base ⟨0, (c : ℝ) * 0.18, 0⟩
  let angle := ((i : ℝ) / 9) * 2 * Real.pi
  let r := 0.07 + (t : ℝ) * 0.015
  let offset_angle := angle + (t : ℝ) * 0.08
  Vec3.add centriole_pos
    ⟨Real.cos offset_angle * r, if c = 0 then 0 else 0, Real.sin offset_angle * r⟩

/-- Claim C7: the extra rotation is applied only to the second centriole,
turning its tube axis from (0, 0, 1) to (0, -1, 0), so the two centriole
barrels have perpendicular long axes (zero dot product); and the dead
conditional y-offset contributes 0 for both centrioles, leaving each tube's
y coordinate at the centriole center's y. -/
theorem c7_centriole_orientation :
    tubeRotX 0 = 0 ∧ tubeRotX 1 = Real.pi / 2
    ∧ tubeAxis 0 = Vec3.mk 0 0 1 ∧ tubeAxis 1 = Vec3.mk 0 (-1) 0
    ∧ Vec3.dot (tubeAxis 0) (tubeAxis 1) = 0
    ∧ ∀ c i t : ℕ, (centrioleTubeLoc c i t).y = -0.5 + c * 0.18 := by
  have h0 : tubeRotX 0 = 0 := by
    rw [tubeRotX, if_neg]
    omega
  have h1 : tubeRotX 1 = Real.pi / 2 := by
    rw [tubeRotX, if_pos rfl]
  have ha0 : tubeAxis 0 = Vec3.mk 0 0 1 := by
    rw [tubeAxis, h0, Real.sin_zero, Real.cos_zero, neg_zero]
  have ha1 : tubeAxis 1 = Vec3.mk 0 (-1) 0 := by
    rw [tubeAxis, h1, Real.sin_pi_div_two, Real.cos_pi_div_two]
  refine ⟨h0, h1, ha0, ha1, ?_, ?_⟩
  · rw [ha0, ha1, Vec3.dot]
    norm_num
  · intro c i t
    simp only [centrioleTubeLoc, Vec3.add, ite_self]
    ring

/-
Smooth ER nodes (create_smooth_er): four draws per node, in source order
theta, phi, shell radius, vertical coordinate.  Note that phi is uniform on
[0, pi) (not the arccos sampling of random_point_in_sphere) and the
vertical coordinate is drawn uniformly from [-0.7, 0.7) instead of being
taken from the spherical angle.
-/

/-- Smooth-ER network node i. -/
noncomputable def serNode (g : ℕ → ℝ) (i : ℕ) : Vec3 :=
  let theta := g (4 * i) * (2 * Real.pi)
  let phi := g (4 * i + 1) * Real.pi
  let r := 1.9 + g (4 * i + 2) * 0.5
  ⟨r * Real.sin phi * Real.cos theta,
   (g (4 * i + 3) - 0.5) * 1.4,
   r * Real.sin phi * Real.sin theta⟩

/-- Node list of the smooth-ER network: 25 nodes. -/
noncomputable def serNodes (g : ℕ → ℝ) : List Vec3 :=
  (List.range 25).map (serNode g)

/-- Claim C5 (amended): each smooth-ER node has the form
(r sin(phi) cos(theta), y, r sin(phi) sin(theta)) with shell radius
r = 1.9 + 0.5 w in [1.9, 2.4) and vertical coordinate y in [-0.7, 0.7);
its horizontal distance from the vertical axis equals r |sin(phi)| and its
distance from the cell center is below 2.5, but when sin(phi) is small the
node lies near the vertical axis, so the distance from the center has no
positive lower bound and the node need not lie on or near the shell. -/
theorem c5_ser_node_bounds (g : ℕ → ℝ)
    (hg : ∀ n, 0 ≤ g n ∧ g n < 1) (i : ℕ) :
    (serNode g i).y = (g (4 * i + 3) - 0.5) * 1.4
    ∧ -0.7 ≤ (serNode g i).y ∧ (serNode g i).y < 0.7
    ∧ Real.sqrt ((serNode g i).x ^ 2 + (serNode g i).z ^ 2)
        = (1.9 + g (4 * i + 2) * 0.5) * |Real.sin (g (4 * i + 1) * Real.pi)|
    ∧ 1.9 + g (4 * i + 2) * 0.5 < 2.4
    ∧ (serNode g i).length < 2.5 := by
  obtain ⟨hy0, hy1⟩ := hg (4 * i + 3)
  obtain ⟨hw0, hw1⟩ := hg (4 * i + 2)
  have hr0 : (0:ℝ) < 1.9 + g (4 * i + 2) * 0.5 := by nlinarith
  have hrlt : (1.9:ℝ) + g (4 * i + 2) * 0.5 < 2.4 := by nlinarith
  have hsin : (Real.sin (g (4 * i + 1) * Real.pi)) ^ 2 ≤ 1 :=
    Real.sin_sq_le_one _
  refine ⟨rfl, by simp only [serNode]; nlinarith, by simp only [serNode]; nlinarith,
    ?_, hrlt, ?_⟩
  · simp only [serNode]
    rw [show ((1.9 + g (4 * i + 2) * 0.5) * Real.sin (g (4 * i + 1) * Real.pi)
          * Real.cos (g (4 * i) * (2 * Real.pi))) ^ 2
        + ((1.9 + g (4 * i + 2) * 0.5) * Real.sin (g (4 * i + 1) * Real.pi)
          * Real.sin (g (4 * i) * (2 * Real.pi))) ^ 2
        = ((1.9 + g (4 * i + 2) * 0.5) * Real.sin (g (4 * i + 1) * Real.pi)) ^ 2
          * ((Real.sin (g (4 * i) * (2 * Real.pi))) ^ 2
            + (Real.cos (g (4 * i) * (2 * Real.pi))) ^ 2) by ring,
      Real.sin_sq_add_cos_sq, mul_one, Real.sqrt_sq_eq_abs, abs_mul,
      abs_of_pos hr0]
  · rw [Vec3.length, Real.sqrt_lt' (by norm_num : (0:ℝ) < 2.5)]
    simp only [serNode]
    set A := Real.sin (g (4 * i + 1) * Real.pi) with hA
    set B := g (4 * i) * (2 * Real.pi) with hB
    set rr := 1.9 + g (4 * i + 2) * 0.5 with hrr
    have hx : (rr * A * Real.cos B) ^ 2 + (rr * A * Real.sin B) ^ 2
        = (rr * A) ^ 2 := by
      rw [show (rr * A * Real.cos B) ^ 2 + (rr * A * Real.sin B) ^ 2
            = (rr * A) ^ 2 * ((Real.sin B) ^ 2 + (Real.cos B) ^ 2) by ring,
          Real.sin_sq_add_cos_sq, mul_one]
    have h1 : (rr * A) ^ 2 ≤ rr ^ 2 := by
      nlinarith [mul_nonneg (sq_nonneg rr) (by linarith : (0:ℝ) ≤ 1 - A ^ 2)]
    have h2 : rr ^ 2 < 5.76 := by nlinarith
    have h3 : ((g (4 * i + 3) - 0.5) * 1.4) ^ 2 ≤ 0.49 := by nlinarith
    clear_value A B rr
    set X := (rr * A * Real.cos B) ^ 2 with hX
    set Z := (rr * A * Real.sin B) ^ 2 with hZ
    set W := (rr * A) ^ 2 with hW
    set Y := ((g (4 * i + 3) - 0.5) * 1.4) ^ 2 with hY
    clear_value X Z W Y
    linarith [hx, h1, h2, h3]

/-- Witness for the amended claim C5 at the constant-zero draw stream and
node 0. -/
theorem c5_ser_node_bounds_witness :
    (∀ n, 0 ≤ gZero n ∧ gZero n < 1)
    ∧ ((serNode gZero 0).y = (gZero 3 - 0.5) * 1.4
      ∧ -0.7 ≤ (serNode gZero 0).y ∧ (serNode gZero 0).y < 0.7
      ∧ Real.sqrt ((serNode gZero 0).x ^ 2 + (serNode gZero 0).z ^ 2)
          = (1.9 + gZero 2 * 0.5) * |Real.sin (gZero 1 * Real.pi)|
      ∧ 1.9 + gZero 2 * 0.5 < 2.4
      ∧ (serNode gZero 0).length < 2.5) :=
  ⟨fun n => ⟨le_refl _, by rw [gZero]; norm_num⟩,
   c5_ser_node_bounds gZero (fun n => ⟨le_refl _, by rw [gZero]; norm_num⟩) 0⟩

/-- Draw stream selecting phi = 0 and a centered vertical coordinate for
node 0; all draws lie in [0, 1). -/
noncomputable def gAxis : ℕ → ℝ := fun n => if n = 3 then 1 / 2 else 0

/-- Claim C5 counterexample: with the valid draw stream gAxis, node 0 of
the smooth-ER network is the exact cell center: its distance from the
center is 0, nowhere near the claimed shell interval [1.9, 2.4] (not even
within a generous margin of 1). -/
theorem c5_ser_node_counterexample :
    (∀ n, 0 ≤ gAxis n ∧ gAxis n < 1)
    ∧ serNode gAxis 0 = Vec3.zero
    ∧ (serNode gAxis 0).length = 0
    ∧ ¬ (1.9 - 1 ≤ (serNode gAxis 0).length) := by
  have hval : ∀ n, 0 ≤ gAxis n ∧ gAxis n < 1 := by
    intro n
    rw [gAxis]
    split_ifs <;> norm_num
  have hnode : serNode gAxis 0 = Vec3.zero := by
    simp only [serNode, gAxis]
    norm_num [Vec3.zero]
  refine ⟨hval, hnode, ?_, ?_⟩
  · rw [hnode, Vec3.length_zero]
  · rw [hnode, Vec3.length_zero]
    norm_num

/-
Smooth-ER edge construction (create_smooth_er): for each node i, the list
of all other nodes with their distances is sorted by distance (Python's
stable list sort, modelled by a stable insertion sort), the three nearest
are considered, and an edge is accepted when its distance is below 1.2 and
its unordered index pair is not already connected.
-/

/-- Distance-labelled neighbor list of node i: every other node index with
its distance from node i. -/
noncomputable def serDistList (nodes : List Vec3) (i : ℕ) : List (ℕ × ℝ) :=
  ((List.range nodes.length).filter (fun j => j != i)).map
    (fun j => (j, (Vec3.sub (nodes.getD i Vec3.zero) (nodes.getD j Vec3.zero)).length))

/-- Candidates considered for node i: the neighbor list sorted by distance
and truncated to the three nearest. -/
noncomputable def serCandidates (nodes : List Vec3) (i : ℕ) : List (ℕ × ℝ) :=
  (List.insertionSort (fun p q => p.2 ≤ q.2) (serDistList nodes i)).take 3

/-- Unordered key of an edge between node indices i and j. -/
def keyOf (i j : ℕ) : ℕ × ℕ := (min i j, max i j)

/-- Inner accept loop for node i over its candidate list: an edge is
accepted when its distance is below 1.2 and its unordered key is not yet
connected; accepted keys are appended in creation order. -/
noncomputable def serInner (i : ℕ) (acc : List (ℕ × ℕ)) :
    List (ℕ × ℝ) → List (ℕ × ℕ)
  | [] => acc
  | jd :: rest =>
      if jd.2 < 1.2 then
        if keyOf i jd.1 ∈ acc then serInner i acc rest
        else serInner i (acc ++ [keyOf i jd.1]) rest
      else serInner i acc rest

/-- Outer loop of the edge construction over the node indices. -/
noncomputable def serAcceptedAux (nodes : List Vec3) :
    List ℕ → List (ℕ × ℕ) → List (ℕ × ℕ)
  | [], acc => acc
  | i :: rest, acc =>
      serAcceptedAux nodes rest (serInner i acc (serCandidates nodes i))

/-- Accepted smooth-ER edges as unordered index keys, in creation order. -/
noncomputable def serAccepted (nodes : List Vec3) : List (ℕ × ℕ) :=
  serAcceptedAux nodes (List.range nodes.length) []

/-- Well-formedness of an accepted edge key: distinct in-range endpoints
in increasing order, at distance below 1.2. -/
def GoodKey (nodes : List Vec3) (p : ℕ × ℕ) : Prop :=
  p.1 ≠ p.2 ∧ p.1 < p.2 ∧ p.2 < nodes.length
  ∧ (Vec3.sub (nodes.getD p.1 Vec3.zero) (nodes.getD p.2 Vec3.zero)).length < 1.2

theorem serDistList_spec {nodes : List Vec3} {i : ℕ} {jd : ℕ × ℝ}
    (h : jd ∈ serDistList nodes i) :
    jd.1 < nodes.length ∧ jd.1 ≠ i
    ∧ jd.2 = (Vec3.sub (nodes.getD i Vec3.zero)
        (nodes.getD jd.1 Vec3.zero)).length := by
  simp only [serDistList, List.mem_map, List.mem_filter, List.mem_range,
    bne_iff_ne, ne_eq] at h
  obtain ⟨j, ⟨hj, hne⟩, rfl⟩ := h
  exact ⟨hj, hne, rfl⟩

theorem serCandidates_spec {nodes : List Vec3} {i : ℕ} {jd : ℕ × ℝ}
    (h : jd ∈ serCandidates nodes i) :
    jd.1 < nodes.length ∧ jd.1 ≠ i
    ∧ jd.2 = (Vec3.sub (nodes.getD i Vec3.zero)
        (nodes.getD jd.1 Vec3.zero)).length := by
  have h1 : jd ∈ List.insertionSort (fun p q => p.2 ≤ q.2) (serDistList nodes i) :=
    List.take_subset 3 _ h
  exact serDistList_spec ((List.mem_insertionSort _).mp h1)

theorem keyOf_lt {n i j : ℕ} (hi : i < n) (hj : j < n) (hne : j ≠ i) :
    (keyOf i j).1 < (keyOf i j).2 ∧ (keyOf i j).2 < n := by
  constructor
  · exact min_lt_max.mpr (Ne.symm hne)
  · exact max_lt hi hj

theorem keyOf_dist (nodes : List Vec3) (i j : ℕ) :
    (Vec3.sub (nodes.getD (keyOf i j).1 Vec3.zero)
      (nodes.getD (keyOf i j).2 Vec3.zero)).length
    = (Vec3.sub (nodes.getD i Vec3.zero) (nodes.getD j Vec3.zero)).length := by
  rcases le_total i j with h | h
  · simp only [keyOf]
    rw [min_eq_left h, max_eq_right h]
  · simp only [keyOf]
    rw [min_eq_right h, max_eq_left h, Vec3.length_sub_comm]

theorem serInner_good (nodes : List Vec3) (i : ℕ) (hi : i < nodes.length) :
    ∀ (cands : List (ℕ × ℝ)) (acc : List (ℕ × ℕ)),
      (∀ jd ∈ cands, jd.1 < nodes.length ∧ jd.1 ≠ i
        ∧ jd.2 = (Vec3.sub (nodes.getD i Vec3.zero)
            (nodes.getD jd.1 Vec3.zero)).length) →
      (∀ p ∈ acc, GoodKey nodes p) →
      ∀ p ∈ serInner i acc cands, GoodKey nodes p := by
  intro cands
  induction cands with
  | nil =>
    intro acc _ hacc p hp
    rw [serInner] at hp
    exact hacc p hp
  | cons jd rest ih =>
    intro acc hcands hacc p hp
    rw [serInner] at hp
    split_ifs at hp with h12 hmem
    · exact ih acc (fun x hx => hcands x (List.mem_cons_of_mem _ hx)) hacc p hp
    · refine ih _ (fun x hx => hcands x (List.mem_cons_of_mem _ hx)) ?_ p hp
      intro q hq
      rcases List.mem_append.mp hq with hq | hq
      · exact hacc q hq
      · rw [List.mem_singleton] at hq
        subst hq
        obtain ⟨hj, hne, hdist⟩ := hcands jd (List.mem_cons_self _ _)
        have hk := keyOf_lt (n := nodes.length) hi hj hne
        refine ⟨ne_of_lt hk.1, hk.1, hk.2, ?_⟩
        rw [keyOf_dist, ← hdist]
        exact h12
    · exact ih acc (fun x hx => hcands x (List.mem_cons_of_mem _ hx)) hacc p hp

theorem serInner_nodup (i : ℕ) :
    ∀ (cands : List (ℕ × ℝ)) (acc : List (ℕ × ℕ)), acc.Nodup →
      (serInner i acc cands).Nodup := by
  intro cands
  induction cands with
  | nil =>
    intro acc h
    rw [serInner]
    exact h
  | cons jd rest ih =>
    intro acc hacc
    rw [serInner]
    split_ifs with h12 hmem
    · exact ih acc hacc
    · refine ih _ ?_
      rw [List.nodup_append]
      refine ⟨hacc, List.nodup_singleton _, ?_⟩
      intro a ha hk
      rw [List.mem_singleton] at hk
      subst hk
      exact hmem ha
    · exact ih acc hacc

theorem serAcceptedAux_good (nodes : List Vec3) :
    ∀ (idxs : List ℕ) (acc : List (ℕ × ℕ)),
      (∀ i ∈ idxs, i < nodes.length) →
      (∀ p ∈ acc, GoodKey nodes p) → acc.Nodup →
      (∀ p ∈ serAcceptedAux nodes idxs acc, GoodKey nodes p)
        ∧ (serAcceptedAux nodes idxs acc).Nodup := by
  intro idxs
  induction idxs with
  | nil =>
    intro acc _ hg hn
    exact ⟨hg, hn⟩
  | cons i rest ih =>
    intro acc his hg hn
    have hi : i < nodes.length := his i (List.mem_cons_self _ _)
    exact ih (serInner i acc (serCandidates nodes i))
      (fun j hj => his j (List.mem_cons_of_mem _ hj))
      (serInner_good nodes i hi _ acc (fun jd hjd => serCandidates_spec hjd) hg)
      (serInner_nodup i _ acc hn)

theorem serNodes_length (g : ℕ → ℝ) : (serNodes g).length = 25 := by
  simp [serNodes]

/-- Claim C4: in the smooth-ER network built from the 25 generated nodes,
no unordered node-index pair appears as an edge more than once, every edge
joins two distinct in-range nodes, and every accepted edge joins nodes
whose Euclidean distance is strictly below 1.2. -/
theorem c4_ser_edge_invariants (g : ℕ → ℝ) :
    (serAccepted (serNodes g)).Nodup
    ∧ (serAccepted (serNodes g)).Forall (fun p =>
        p.1 ≠ p.2 ∧ p.1 < p.2 ∧ p.2 < 25
        ∧ (Vec3.sub ((serNodes g).getD p.1 Vec3.zero)
            ((serNodes g).getD p.2 Vec3.zero)).length < 1.2) := by
  have h := serAcceptedAux_good (serNodes g)
    (List.range (serNodes g).length) []
    (fun i hi => List.mem_range.mp hi)
    (fun p hp => absurd hp (List.not_mem_nil p)) List.nodup_nil
  refine ⟨h.2, ?_⟩
  rw [List.forall_iff_forall_mem]
  intro p hp
  obtain ⟨hne, hlt, hlen, hdist⟩ := h.1 p hp
  exact ⟨hne, hlt, by rwa [serNodes_length g] at hlen, hdist⟩

/-
Scene model.  Every generator contributes a list of scene objects; an
object records its name, a kind tag, the material appended to it (the
source appends exactly one material to every created object), its location
and, for curve objects, its control points.  The whole script is a fixed
sequence of generator calls; each generator receives its own draw stream
(indexed member of a stream family), matching the fact that no generator
reads another generator's draws.
-/

/-- Kind tag of a generated scene object. -/
inductive Kind where
  | membrane
  | envelope
  | nucleoplasm
  | nucleolus
  | chromatin
  | erCisterna
  | erRibosome
  | serTube
  | serJunction
  | mitoOuter
  | mitoCrista
  | golgiCisterna
  | golgiVesicle
  | lysosome
  | centrioleTube
  | freeRibosome
  | microtubule
deriving DecidableEq

/-- Scene object record. -/
structure Obj where
  name : String
  kind : Kind
  material : Option String
  loc : Vec3
  points : List Vec3

/-- Number of objects of the given kind in a list. -/
def countKind (l : List Obj) (k : Kind) : ℕ :=
  l.countP (fun o => decide (o.kind = k))

/-- Cell membrane group: a single displaced sphere at the origin. -/
def membraneObjs : List Obj :=
  [⟨"CellMembrane", Kind.membrane, some "Membrane", Vec3.zero, []⟩]

/-- Control points of chromatin strand i: four points sampled in a sphere
of radius 0.7 and shifted to the nucleus offset; 12 draws per strand. -/
noncomputable def chromatinPoints (g : ℕ → ℝ) (i : ℕ) : List Vec3 :=
  (List.range 4).map (fun j =>
    Vec3.add
      (random_point_in_sphere 0.7 (g (12 * i + 3 * j)) (g (12 * i + 3 * j + 1))
        (g (12 * i + 3 * j + 2)))
      ⟨0, 0, 0.2⟩)

/-- Nucleus group (create_nucleus): envelope, nucleoplasm, nucleolus and
ten chromatin strands. -/
noncomputable def nucleusObjs (g : ℕ → ℝ) : List Obj :=
  ⟨"NuclearEnvelope", Kind.envelope, some "NuclearEnvelope", ⟨0, 0, 0.2⟩, []⟩
  :: ⟨"Nucleoplasm", Kind.nucleoplasm, some "Nucleoplasm", ⟨0, 0, 0.2⟩, []⟩
  :: ⟨"Nucleolus", Kind.nucleolus, some "Nucleolus", ⟨0.25, 0.15, 0.35⟩, []⟩
  :: (List.range 10).map (fun i =>
      ⟨"Chromatin" ++ toString i, Kind.chromatin, some "Chromatin", Vec3.zero,
        chromatinPoints g i⟩)

/-- Stack-1 rough-ER objects: 5 cisternae, each followed by its 20
ribosomes. -/
noncomputable def stack1Objs (g : ℕ → ℝ) : List Obj :=
  (List.range 5).flatMap (fun i =>
    ⟨"RER_Stack1_Cisterna" ++ toString i, Kind.erCisterna, some "RoughER",
      stack1CisternaLoc i, []⟩
    :: (List.range 20).map (fun r =>
      ⟨"Ribosome_S1C" ++ toString i ++ "_" ++ toString r, Kind.erRibosome,
        some "Ribosome", stack1Ribosome g i r, []⟩))

/-- Stack-2 rough-ER objects: 4 cisternae with 15 ribosomes each. -/
noncomputable def stack2Objs (g : ℕ → ℝ) : List Obj :=
  (List.range 4).flatMap (fun i =>
    ⟨"RER_Stack2_Cisterna" ++ toString i, Kind.erCisterna, some "RoughER",
      stack2CisternaLoc i, []⟩
    :: (List.range 15).map (fun r =>
      ⟨"Ribosome_S2C" ++ toString i ++ "_" ++ toString r, Kind.erRibosome,
        some "Ribosome", stack2Ribosome g i r, []⟩))

/-- Stack-3 rough-ER objects: 3 cisternae with 12 ribosomes each. -/
noncomputable def stack3Objs (g : ℕ → ℝ) : List Obj :=
  (List.range 3).flatMap (fun i =>
    ⟨"RER_Stack3_Cisterna" ++ toString i, Kind.erCisterna, some "RoughER",
      stack3CisternaLoc i, []⟩
    :: (List.range 12).map (fun r =>
      ⟨"Ribosome_S3C" ++ toString i ++ "_" ++ toString r, Kind.erRibosome,
        some "Ribosome", stack3Ribosome g i r, []⟩))

/-- Rough ER group (create_rough_er): the three stacks in order. -/
noncomputable def roughErObjs (g : ℕ → ℝ) : List Obj :=
  stack1Objs g ++ stack2Objs g ++ stack3Objs g

/-- Tube object for the accepted edge with key at position n of the
accepted list.  The source also computes a jittered midpoint from three
further draws (stream positions 100 + 3n onward, after the 100 node draws)
but never adds it to the spline, so the tube control points are just the
two endpoints; the name and endpoints are recorded through the unordered
key. -/
noncomputable def serTubeObj (g : ℕ → ℝ) (nodes : List Vec3)
    (n : ℕ) (key : ℕ × ℕ) : Obj :=
  let start := nodes.getD key.1 Vec3.zero
  let stop := nodes.getD key.2 Vec3.zero
  let _mid := Vec3.add (Vec3.smul (1 / 2) (Vec3.add start stop))
    ⟨pyUniform (-0.15) 0.15 (g (100 + 3 * n)),
     pyUniform (-0.1) 0.1 (g (100 + 3 * n + 1)),
     pyUniform (-0.15) 0.15 (g (100 + 3 * n + 2))⟩
  ⟨"SERTube_" ++ toString key.1 ++ "_" ++ toString key.2, Kind.serTube,
    some "SmoothER", Vec3.zero, [start, stop]⟩

/-- Smooth ER group (create_smooth_er): one tube per accepted edge, then
one junction sphere per node. -/
noncomputable def smoothErObjs (g : ℕ → ℝ) : List Obj :=
  ((serAccepted (serNodes g)).enum.map (fun p =>
    serTubeObj g (serNodes g) p.1 p.2))
  ++ (List.range 25).map (fun i =>
    ⟨"SERJunction_" ++ toString i, Kind.serJunction, some "SmoothER",
      serNode g i, []⟩)

/-- Result of the expression Vector((0, 0, offset)).rotate(M) in
create_mitochondrion, modelled from the mathutils API semantics:
Vector.rotate mutates the vector in place and returns None, so the
expression itself has no vector value and the subsequent += raises a
TypeError when the script runs, aborting generation at the first crista of
the first mitochondrion. -/
def rotatedCristaOffset (offset : ℝ) : Option Vec3 :=
  let _ := offset
  none

/-- Intended shifted location of crista j of a mitochondrion at loc with
capsule length len: the composition of the axial offset with the failed
rotate call, hence never a value. -/
noncomputable def cristaShift (loc : Vec3) (len : ℝ) (j : ℕ) : Option Vec3 :=
  (rotatedCristaOffset (((j : ℝ) - 1.5) * (len / 4.5))).map
    (fun d => Vec3.add loc d)

/-- Mitochondria group (create_mitochondria): 12 capsules, each with its 4
cristae tori created at the capsule location (the axial shift of each
crista is the failed += described at rotatedCristaOffset). -/
noncomputable def mitoObjs (g : ℕ → ℝ) : List Obj :=
  (List.range 12).flatMap (fun i =>
    ⟨"Mitochondrion_" ++ toString i, Kind.mitoOuter, some "MitoOuter",
      mitoPos g i, []⟩
    :: (List.range 4).map (fun j =>
      ⟨"Crista_" ++ toString j, Kind.mitoCrista, some "MitoInner",
        mitoPos g i, []⟩))

/-- Golgi group (create_golgi): 5 stacked cisternae then 8 vesicles; each
vesicle consumes 4 draws (radius, then the three location offsets). -/
noncomputable def golgiObjs (g : ℕ → ℝ) : List Obj :=
  (List.range 5).map (fun i =>
    ⟨"GolgiCisterna_" ++ toString i, Kind.golgiCisterna, some "Golgi",
      Vec3.add ⟨-1.8, 0.3, 1.0⟩ ⟨(i : ℝ) * 0.04, (i : ℝ) * 0.1, 0⟩, []⟩)
  ++ (List.range 8).map (fun i =>
    ⟨"GolgiVesicle_" ++ toString i, Kind.golgiVesicle, some "Vesicle",
      Vec3.add ⟨-1.8, 0.3, 1.0⟩
        ⟨0.3 + pyUniform 0 0.2 (g (4 * i + 1)),
         pyUniform (-0.15) 0.35 (g (4 * i + 2)),
         pyUniform (-0.2) 0.2 (g (4 * i + 3))⟩, []⟩)

/-- Lysosome group (create_lysosomes): 10 spheres. -/
noncomputable def lysoObjs (g : ℕ → ℝ) : List Obj :=
  (List.range 10).map (fun i =>
    ⟨"Lysosome_" ++ toString i, Kind.lysosome, some "Lysosome",
      lysoPos g i, []⟩)

/-- Centrosome group (create_centrosome): 2 centrioles of 9 triplets of 3
tubes; no random draws. -/
noncomputable def centroObjs : List Obj :=
  (List.range 2).flatMap (fun c =>
    (List.range 9).flatMap (fun i =>
      (List.range 3).map (fun t =>
        ⟨"Centriole" ++ toString c ++ "_Triplet" ++ toString i ++ "_"
            ++ toString t,
          Kind.centrioleTube, some "Centriole", centrioleTubeLoc c i t, []⟩)))

/-- Free-ribosome group (create_free_ribosomes): 60 spheres. -/
noncomputable def freeRiboObjs (g : ℕ → ℝ) : List Obj :=
  (List.range 60).map (fun i =>
    ⟨"FreeRibosome_" ++ toString i, Kind.freeRibosome, some "Ribosome",
      freeRiboPos g i, []⟩)

/-- End point of microtubule i (create_cytoskeleton): a point on the
sphere of radius 2.7 whose y coordinate is replaced by a uniform draw from
[-2, 2); 6 draws per microtubule (two for the sphere point, one for y,
three for the computed-but-unused jittered midpoint). -/
noncomputable def microtubuleEnd (g : ℕ → ℝ) (i : ℕ) : Vec3 :=
  let p := random_point_on_sphere 2.7 (g (6 * i)) (g (6 * i + 1))
  ⟨p.x, pyUniform (-2) 2 (g (6 * i + 2)), p.z⟩

/-- Cytoskeleton group: 18 microtubule curves from the centrosome position
to their end points. -/
noncomputable def cytoObjs (g : ℕ → ℝ) : List Obj :=
  (List.range 18).map (fun i =>
    ⟨"Microtubule_" ++ toString i, Kind.microtubule, some "Cytoskeleton",
      Vec3.zero, [⟨1.5, -0.5, -1.2⟩, microtubuleEnd g i]⟩)

/-- Whole generated scene, generators invoked in source order, each with
its own member of the draw-stream family. -/
noncomputable def scene (g : ℕ → ℕ → ℝ) : List Obj :=
  membraneObjs ++ nucleusObjs (g 0) ++ roughErObjs (g 1) ++ smoothErObjs (g 2)
  ++ mitoObjs (g 3) ++ golgiObjs (g 4) ++ lysoObjs (g 5) ++ centroObjs
  ++ freeRiboObjs (g 6) ++ cytoObjs (g 7)

/-- Scene clearing (clear_scene): selects and deletes every object. -/
def clear_scene (_s : List Obj) : List Obj := []

/-- One run of the script: clear the current scene, then generate. -/
noncomputable def runScript (s : List Obj) (g : ℕ → ℕ → ℝ) : List Obj :=
  clear_scene s ++ scene g

theorem smoothErObjs_material (g : ℕ → ℝ) :
    (smoothErObjs g).all (fun o => o.material.isSome) = true := by
  rw [List.all_eq_true]
  intro o ho
  simp only [smoothErObjs, List.mem_append, List.mem_map] at ho
  rcases ho with ⟨p, _, rfl⟩ | ⟨i, _, rfl⟩
  · rfl
  · rfl

set_option maxRecDepth 400000 in
theorem scene_material (g : ℕ → ℕ → ℝ) :
    (scene g).all (fun o => o.material.isSome) = true := by
  simp only [scene, List.all_append, Bool.and_eq_true, and_assoc]
  exact ⟨rfl, rfl, rfl, smoothErObjs_material (g 2), rfl, rfl, rfl, rfl,
    rfl, rfl⟩

set_option maxRecDepth 400000 in
/-- Claim C1: the per-group object counts of the pipeline as designed — 10
chromatin strands, 12 rough-ER cisternae (5 + 4 + 3 by stack), 12
mitochondria, 5 Golgi cisternae, 8 Golgi vesicles, 10 lysosomes, 54
centriole tubes, 60 free ribosomes, 18 microtubules — with every created
object carrying a material; and, the slip that prevents a real run from
reaching them: the crista-shift expression of create_mitochondrion never
has a vector value (mathutils Vector.rotate mutates in place and returns
None), so the script raises a TypeError at the first crista of the first
mitochondrion and the generators after create_mitochondria never run. -/
theorem c1_group_counts (g : ℕ → ℕ → ℝ) (h : ℕ → ℝ) :
    countKind (nucleusObjs h) Kind.chromatin = 10
    ∧ countKind (stack1Objs h) Kind.erCisterna = 5
    ∧ countKind (stack2Objs h) Kind.erCisterna = 4
    ∧ countKind (stack3Objs h) Kind.erCisterna = 3
    ∧ countKind (roughErObjs h) Kind.erCisterna = 12
    ∧ countKind (mitoObjs h) Kind.mitoOuter = 12
    ∧ countKind (golgiObjs h) Kind.golgiCisterna = 5
    ∧ countKind (golgiObjs h) Kind.golgiVesicle = 8
    ∧ countKind (lysoObjs h) Kind.lysosome = 10
    ∧ countKind centroObjs Kind.centrioleTube = 54
    ∧ countKind (freeRiboObjs h) Kind.freeRibosome = 60
    ∧ countKind (cytoObjs h) Kind.microtubule = 18
    ∧ (scene g).all (fun o => o.material.isSome) = true
    ∧ (∀ loc len j, cristaShift loc len j = none) :=
  ⟨rfl, rfl, rfl, rfl, rfl, rfl, rfl, rfl, rfl, rfl, rfl, rfl,
   scene_material g, fun _ _ _ => rfl⟩

/-- Claim C9: clearing the scene then re-running generation with the same
draw family produces a scene that does not depend on the prior scene
contents, so two runs with the same seed have identical per-group object
counts. -/
theorem c9_regeneration_determinism (s1 s2 : List Obj) (g : ℕ → ℕ → ℝ)
    (k : Kind) :
    runScript s1 g = scene g
    ∧ countKind (runScript s1 g) k = countKind (runScript s2 g) k :=
  ⟨rfl, rfl⟩
